import Mathlib

/-
  Verification development for the docOnto repository
  (src/text_sections.py and src/tppProcessor.py).

  The Python sources are shallowly embedded below.  Strings are modelled as
  List Char so that Python slice arithmetic is explicit; Python functions that
  can raise are modelled with explicit error values; the regular-expression
  header matchers (re.Pattern.finditer) are modelled as abstract functions
  from text to ordered match lists, and the match lists they would return are
  taken as inputs where the claims quantify over them.
-/

set_option autoImplicit false

namespace DocOnto

/-! ### Python string primitives -/

/-- The whitespace set of Python str.strip for the ASCII range. -/
def pyIsSpace (c : Char) : Bool :=
  c = ' ' || c = '\t' || c = '\n' || c = '\x0d' || c = '\x0b' || c = '\x0c'

/-- Python slice text[a:b] for 0 <= a, b (clamped at the ends like Python). -/
def pySlice (l : List Char) (a b : Nat) : List Char :=
  (l.drop a).take (b - a)

/-- Python str.lstrip (default whitespace). -/
def pyLstrip (l : List Char) : List Char :=
  l.dropWhile pyIsSpace

/-- Python str.rstrip (default whitespace). -/
def pyRstrip (l : List Char) : List Char :=
  (l.reverse.dropWhile pyIsSpace).reverse

/-- Python str.strip (default whitespace). -/
def pyStrip (l : List Char) : List Char :=
  pyLstrip (pyRstrip l)

/-! ### Marker classifier

  From src/text_sections.py, PassageUnit (identical in src/tppProcessor.py):

    _bpoint_markers = {
        "CAP": re.compile(r'[A-Z]'),
        "LWR": re.compile(r'[a-z]'),
        "IDX": re.compile(r'[iI]+')
    }

    def _getBpointType(self, point):
        for k in self._bpoint_markers:
            if self._bpoint_markers[k].match(point):
                return k

  Python dicts iterate in insertion order, so the keys are tried in the order
  CAP, LWR, IDX.  re.match anchors at position 0, so each of these one-element
  character classes succeeds exactly when the first character of the glyph is
  in the class; the pattern [iI]+ matches at position 0 exactly when the first
  character is i or I.  When no pattern matches, the loop falls through and the
  Python function returns None.
-/

/-- The three marker keys of _bpoint_markers. -/
inductive BKey where
  | CAP
  | LWR
  | IDX
deriving DecidableEq

/-- PassageUnit._getBpointType: first key of _bpoint_markers (in insertion
order CAP, LWR, IDX) whose anchored pattern matches; none when the loop falls
through. -/
def bpointType (point : List Char) : Option BKey :=
  match point with
  | [] => none
  | c :: _ =>
    if 'A' ≤ c ∧ c ≤ 'Z' then some BKey.CAP
    else if 'a' ≤ c ∧ c ≤ 'z' then some BKey.LWR
    else if c = 'i' ∨ c = 'I' then some BKey.IDX
    else none

/-- Modelled from the spec: the Marker Classifier contract of spec section 4.1,
which the code does not implement with a preceding-marker argument.  A glyph of
one or more repetitions of i and I is classified LOWER when the previous
classified marker was LOWER with glyph h, or when the glyph is not the previous
glyph extended by one i; otherwise it is classified ROMAN_INDEX.  Other glyphs
follow the plain alphabet rules.  This definition exists only to state claim
C1 as written; the source classifier is bpointType above. -/
def specClassify (glyph : List Char) (prev : Option (List Char × BKey)) :
    Option BKey :=
  match glyph with
  | [] => none
  | c :: rest =>
    if (c :: rest).all (fun d => d == 'i' || d == 'I') then
      match prev with
      | some (pglyph, ptype) =>
        if (ptype = BKey.LWR ∧ pglyph = ['h']) ∨ c :: rest ≠ pglyph ++ ['i'] then
          some BKey.LWR
        else
          some BKey.IDX
      | none => some BKey.LWR
    else if 'A' ≤ c ∧ c ≤ 'Z' then some BKey.CAP
    else if 'a' ≤ c ∧ c ≤ 'z' then some BKey.LWR
    else none

/-! ### Header matches and the span splitter

  From src/text_sections.py, IndexUnit._getPackagedUnits:

    while smatches:
        section_match = smatches.pop(0)
        scode = section_match.group(1)
        try: header = section_match.group(2)
        except IndexError: header = None
        if smatches:
            text_end = smatches[0].start() - 1
        else:
            text_end = len(raw) - 1
        text = raw[section_match.end():text_end].strip()
        subunits[scode] = self.SubUnit(header, text)

  (src/tppProcessor.py inlines the same loop in IndexUnit._getSubUnits.)
-/

/-- One regex header match: captured code, optional captured title, and the
span of the whole match in the enclosing text. -/
structure HeaderMatch where
  code : String
  title : Option String
  spanStart : Nat
  spanEnd : Nat
deriving DecidableEq

/-- The body computation of _getPackagedUnits: each match paired with the
stripped text slice the loop assigns to it (next match start minus one, or
len(raw) minus one for the last match). -/
def bodySpans (raw : List Char) : List HeaderMatch → List (HeaderMatch × List Char)
  | [] => []
  | [m] => [(m, pyStrip (pySlice raw m.spanEnd (raw.length - 1)))]
  | m :: m2 :: rest =>
    (m, pyStrip (pySlice raw m.spanEnd (m2.spanStart - 1))) :: bodySpans raw (m2 :: rest)

/-- The untrimmed body slices, before str.strip is applied. -/
def rawBodies (raw : List Char) : List HeaderMatch → List (List Char)
  | [] => []
  | [m] => [pySlice raw m.spanEnd (raw.length - 1)]
  | m :: m2 :: rest =>
    pySlice raw m.spanEnd (m2.spanStart - 1) :: rawBodies raw (m2 :: rest)

/-- Sanity conditions on a match list: each match has spanStart <= spanEnd,
consecutive matches satisfy spanEnd < next spanStart, and the last match ends
strictly before the end of the text. -/
def wellOrdered (raw : List Char) : List HeaderMatch → Bool
  | [] => true
  | [m] => decide (m.spanStart ≤ m.spanEnd) && decide (m.spanEnd < raw.length)
  | m :: m2 :: rest =>
    decide (m.spanStart ≤ m.spanEnd) && decide (m.spanEnd < m2.spanStart) &&
      wellOrdered raw (m2 :: rest)

/-- The full decomposition of the text from the start of the first match
onwards, as the code cuts it: for each match its header span, then its
untrimmed body span, then the single discarded boundary character (for the
last match, the final character of the text). -/
def chunks (raw : List Char) : List HeaderMatch → List Char
  | [] => []
  | [m] =>
    pySlice raw m.spanStart m.spanEnd ++ pySlice raw m.spanEnd (raw.length - 1) ++
      raw.drop (raw.length - 1)
  | m :: m2 :: rest =>
    pySlice raw m.spanStart m.spanEnd ++ pySlice raw m.spanEnd (m2.spanStart - 1) ++
      pySlice raw (m2.spanStart - 1) m2.spanStart ++ chunks raw (m2 :: rest)

/-- Modelled from the spec: the round-trip reconstruction of claim C4 as the
spec words it, namely the sibling body spans returned by the Span Splitter
concatenated with the single boundary character discarded at each cut (a cut
lies between two consecutive matches).  This definition exists only to state
claim C4 as written. -/
def specReconstruct (raw : List Char) : List HeaderMatch → List Char
  | [] => []
  | [m] => pyStrip (pySlice raw m.spanEnd (raw.length - 1))
  | m :: m2 :: rest =>
    pyStrip (pySlice raw m.spanEnd (m2.spanStart - 1)) ++
      pySlice raw (m2.spanStart - 1) m2.spanStart ++ specReconstruct raw (m2 :: rest)

/-! ### Structural nodes and the decomposition pass

  From src/text_sections.py.  TextUnit.__init__ receives (header, text,
  SubUnit); when self.SubUnit is set it names the subunit attribute after the
  SubUnit argument, calls self._getSubUnits(text) and stores the result only
  if it is non-empty; when self.SubUnit is None (possibly after _getSubUnits
  reached the terminal case) the node becomes terminal via _beTerminal, which
  stores the raw text and the external nlp annotation.

  IndexUnit._getSubUnits:

    if self.SubUnit is None: return None
    smatches = self._getSubHeaders(raw)
    while not smatches:
        if self.SubUnit.SubUnit is not None:
            self.SubUnit = self.SubUnit.SubUnit
        else:
            self._beTerminal(raw)
            break
        smatches = self._getSubHeaders(raw)
    subunits = self._getPackagedUnits(raw, smatches)
    return subunits

  The class hierarchy (declared in src/tppProcessor.py: Chapter.SubUnit =
  Section, Section.SubUnit = Article, Article.SubUnit = Paragraph, leaf
  SubUnit = None) is modelled as a list of level descriptors: the node's
  SubUnit chain.  self.SubUnit = self.SubUnit.SubUnit is the step to the tail
  of that list; re-assigning self.SubUnit only shadows the class attribute on
  the instance, so the class objects are never mutated.  Each level's compiled
  pattern's finditer is the abstract function find.  Children are kept as an
  association list in discovery order (the Python dict preserves insertion
  order; distinct codes are assumed by the claims, so overwriting on a
  duplicate key plays no role here).
-/

/-- A hierarchy level: its class name and its header matcher
(pattern.finditer). -/
structure LevelDesc where
  name : String
  find : List Char → List HeaderMatch

/-- A constructed TextUnit, with the attributes the Python constructor can
leave on an instance: the dynamically named subunit attribute (attrName, set
only when the subunits dict is non-empty), the children stored under it
tagged with the level (class) they were instantiated at, and the raw text
stored by _beTerminal when the node degraded to terminal.  The node's own
class is level. -/
inductive PyUnit where
  | mk (level : String) (header : Option String) (attrName : Option String)
      (childLevel : Option String) (children : List (String × PyUnit))
      (terminalRaw : Option (List Char))

/-- The class of the node. -/
def PyUnit.level : PyUnit → String
  | .mk l _ _ _ _ _ => l

/-- The node's header. -/
def PyUnit.header : PyUnit → Option String
  | .mk _ h _ _ _ _ => h

/-- The name of the dynamically created subunit attribute, when set. -/
def PyUnit.attrName : PyUnit → Option String
  | .mk _ _ a _ _ _ => a

/-- The class the children were instantiated at, when there are children. -/
def PyUnit.childLevel : PyUnit → Option String
  | .mk _ _ _ cl _ _ => cl

/-- The children mapping (code to child), in discovery order. -/
def PyUnit.children : PyUnit → List (String × PyUnit)
  | .mk _ _ _ _ cs _ => cs

/-- The raw text stored by _beTerminal, when the node degraded to terminal. -/
def PyUnit.terminalRaw : PyUnit → Option (List Char)
  | .mk _ _ _ _ _ t => t

/-- The body of TextUnit.__init__ together with IndexUnit._getSubUnits for a
node of class level whose original SubUnit chain is the last argument; attr is
the lowercased name of the original SubUnit argument (the degradation loop
re-binds self.SubUnit, but the attribute name was computed from the __init__
parameter).  The degradation loop walking self.SubUnit.SubUnit is the
recursion to the tail of the chain; when the last level still has no matches,
_beTerminal fires inside _getSubUnits, _getPackagedUnits returns an empty dict
and the attribute is not set.  Each child is constructed by self.SubUnit(
header, text): a unit of the found level's class whose own SubUnit chain is
the remaining tail (a unit whose SubUnit is None goes straight to
_beTerminal). -/
def buildFrom (level attr : String) (header : Option String) (raw : List Char) :
    List LevelDesc → PyUnit
  | [] => PyUnit.mk level header none none [] (some raw)
  | L :: rest =>
    match L.find raw with
    | [] =>
      match rest with
      | [] => PyUnit.mk level header none none [] (some raw)
      | L2 :: rs => buildFrom level attr header raw (L2 :: rs)
    | m :: ms =>
      PyUnit.mk level header (some attr) (some L.name)
        ((bodySpans raw (m :: ms)).map fun p =>
          (p.1.code,
            match rest with
            | [] => PyUnit.mk L.name p.1.title none none [] (some p.2)
            | L2 :: rs => buildFrom L.name L2.name p.1.title p.2 (L2 :: rs)))
        none

/-- Constructing one unit of class level whose own SubUnit chain is chain: the
subunit attribute name is the chain head's name, and a unit with SubUnit None
goes straight to _beTerminal. -/
def buildUnit (level : String) (header : Option String) (raw : List Char) :
    List LevelDesc → PyUnit
  | [] => PyUnit.mk level header none none [] (some raw)
  | L :: rest => buildFrom level L.name header raw (L :: rest)

/-- n is a node of the tree rooted at u (u itself, or reachable through
children). -/
inductive Subnode : PyUnit → PyUnit → Prop where
  | refl (u : PyUnit) : Subnode u u
  | step (u : PyUnit) (kc : String × PyUnit) (v : PyUnit) :
      kc ∈ u.children → Subnode kc.2 v → Subnode u v

/-- The container-or-terminal invariant of one node: either it has non-empty
children and no terminal attributes, or no children and the terminal raw text;
and every child was instantiated at the node's single child level. -/
def nodeInv (n : PyUnit) : Prop :=
  (n.children ≠ [] ∧ n.terminalRaw = none ∨
    n.children = [] ∧ n.terminalRaw ≠ none) ∧
  ∀ kc ∈ n.children, some kc.2.level = n.childLevel

/-! ### The bullet scan of PassageUnit._getSubUnits (src/text_sections.py)

    def _getSubUnits(self, pass_to=None,
                     seen_it=[], last_point=None,
                     point_heads=None):
        if pass_to is None:
            pass_to = self.content
        if point_heads is not None:
            point_heads = list(SUBITEM.finditer(self.raw))
        while point_heads:
            head = point_heads.pop(0)
            bpoint = head.group(1)
            clause = head.group(2)
            point_type = self._getBpointType(bpoint)
            if point_heads:
                next_point = point_heads[0].group(1)
                next_type = self._getBpointType(next_point)
            else:
                break
            if point_type == last_type:
                point_at[bpoint] = SemanticUnit(clause)
            elif next_type in seen_it:
                break
            else:
                seen_it.append(next_type)
                self._getSubUnits(pass_to=point_at[bpoint], ...)

  The names last_type and point_at are bound nowhere in the function (the
  parameter is last_point), so evaluating the comparison point_type ==
  last_type raises NameError; every loop iteration that passes the lookahead
  reaches that comparison, so no assignment into pass_to and no append to
  seen_it is ever executed.  The guard `if point_heads is not None` replaces a
  passed non-None list with the full finditer list and leaves the default None
  as None, and `while None` does not iterate.  The default seen_it=[] list is
  a single object evaluated once at function definition time and shared by
  every call that does not pass seen_it; it is threaded explicitly below. -/

/-- One SUBITEM match: group(1) is the bullet head (for the SUBITEM pattern
this is a parenthesised letter or a digit) and group(2) the rest of the
line. -/
structure SubItemMatch where
  group1 : List Char
  group2 : List Char
deriving DecidableEq

/-- A Python runtime error. -/
inductive PyErr where
  | nameError (n : String)
  | typeError (m : String)
deriving DecidableEq

/-- Observable outcome of one call of PassageUnit._getSubUnits: the
(bpoint, clause) pairs stored into pass_to, the error that aborted the call
if any, and the final contents of the shared default seen_it list. -/
structure ScanResult where
  stored : List (List Char × List Char)
  err : Option PyErr
  seenOut : List BKey
deriving DecidableEq

/-- The while loop of PassageUnit._getSubUnits over the (replaced) point_heads
list.  A single remaining head takes the `else: break` of the lookahead and is
discarded; two or more remaining heads reach the comparison with the unbound
name last_type and raise NameError before anything is stored or appended. -/
def passageLoopTS (heads : List SubItemMatch) (seenIt : List BKey) : ScanResult :=
  match heads with
  | [] => ⟨[], none, seenIt⟩
  | head :: rest =>
    let bpoint := head.group1
    let point_type := bpointType bpoint
    match rest with
    | [] => ⟨[], none, seenIt⟩
    | nh :: _ =>
      let next_type := bpointType nh.group1
      let _ := (bpoint, point_type, next_type)
      ⟨[], some (PyErr.nameError "last_type"), seenIt⟩

/-- PassageUnit._getSubUnits itself: point_heads is the argument (None under
the default call), selfHeads stands for list(SUBITEM.finditer(self.raw)), and
seenIt is the current contents of the shared default seen_it object. -/
def passageGetSubUnitsTS (point_heads : Option (List SubItemMatch))
    (selfHeads : List SubItemMatch) (seenIt : List BKey) : ScanResult :=
  match point_heads with
  | none => ⟨[], none, seenIt⟩
  | some _ => passageLoopTS selfHeads seenIt

/-- Two successive top-level invocations over the same input: the structural
decomposition (which neither reads nor writes the shared default object) and
the bullet scan, the second invocation starting from the shared seen_it state
the first one left behind. -/
def parseTwice (level attr : String) (header : Option String) (raw : List Char)
    (chain : List LevelDesc) (point_heads : Option (List SubItemMatch))
    (selfHeads : List SubItemMatch) (s : List BKey) :
    (PyUnit × ScanResult) × (PyUnit × ScanResult) :=
  let t1 := buildFrom level attr header raw chain
  let b1 := passageGetSubUnitsTS point_heads selfHeads s
  let t2 := buildFrom level attr header raw chain
  let b2 := passageGetSubUnitsTS point_heads selfHeads b1.seenOut
  ((t1, b1), (t2, b2))

/-! ### The constructor chain of src/tppProcessor.py

    class TextUnit(ABC):
        def __init__(self, header, text, SubUnit): ...

    class IndexUnit(TextUnit):
        def __init__(self, header, text):
            super().__init__(header)

    class Article(IndexUnit):
        def __init__(self, header, text):
            super().__init__(header, text, self.SubUnit)

  (Section, Chapter and FullText forward (header, text, self.SubUnit) the same
  way; TppFull forwards ("TPP", text, self.SubUnit).)  Python raises TypeError
  for a call whose positional arguments do not fit the parameter list, before
  the callee's body runs.  Calls are modelled with explicit argument lists; a
  successful TextUnit.__init__ would go on to decompose (that body is modelled
  by buildFrom above from the text_sections draft), so the success value is
  the marker string below. -/

/-- A Python argument value as passed through these constructors. -/
inductive PyArg where
  | str (s : String)
  | noneV
  | cls (name : String)
deriving DecidableEq

/-- tppProcessor TextUnit.__init__, arity-checked: it requires exactly header,
text and SubUnit. -/
def TextUnit_init_tpp (args : List PyArg) : Except PyErr String :=
  match args with
  | [_header, _text, _SubUnit] => Except.ok "decomposed"
  | _ =>
    Except.error (PyErr.typeError
      "TextUnit.__init__ missing required positional arguments")

/-- tppProcessor IndexUnit.__init__, arity-checked: it accepts exactly
(header, text) and forwards only header to TextUnit.__init__. -/
def IndexUnit_init_tpp (args : List PyArg) : Except PyErr String :=
  match args with
  | [header, _text] => TextUnit_init_tpp [header]
  | _ =>
    Except.error (PyErr.typeError
      "IndexUnit.__init__ takes 3 positional arguments but 4 were given")

/-- tppProcessor Article.__init__(header, text): super().__init__(header,
text, self.SubUnit) with Article.SubUnit = Paragraph. -/
def Article_init_tpp (header text : PyArg) : Except PyErr String :=
  IndexUnit_init_tpp [header, text, PyArg.cls "Paragraph"]

/-- tppProcessor Section.__init__(header, text), Section.SubUnit = Article. -/
def Section_init_tpp (header text : PyArg) : Except PyErr String :=
  IndexUnit_init_tpp [header, text, PyArg.cls "Article"]

/-- tppProcessor Chapter.__init__(header, text), Chapter.SubUnit = Section. -/
def Chapter_init_tpp (header text : PyArg) : Except PyErr String :=
  IndexUnit_init_tpp [header, text, PyArg.cls "Section"]

/-- tppProcessor FullText.__init__(header, text, SubUnit) forwards all three
to IndexUnit.__init__. -/
def FullText_init_tpp (header text subUnit : PyArg) : Except PyErr String :=
  IndexUnit_init_tpp [header, text, subUnit]

/-- tppProcessor TppFull.__init__(text): super().__init__("TPP", text,
self.SubUnit) with TppFull.SubUnit = Chapter. -/
def TppFull_init_tpp (text : PyArg) : Except PyErr String :=
  FullText_init_tpp (PyArg.str "TPP") text (PyArg.cls "Chapter")

/-! ### Concrete inputs for witnesses and counterexamples -/

/-- The text A:ab with one header match covering A: (code A, no title). -/
def cRaw3 : List Char := ['A', ':', 'a', 'b']

/-- The single header match on cRaw3: span 0..2. -/
def cM3 : HeaderMatch := ⟨"A", none, 0, 2⟩

/-- A demo text for the degradation scenario: an article header line followed
by body text (the concrete characters are irrelevant; the matchers below are
abstract). -/
def demoRaw : List Char := "Article 2.1: Scope\nBody text.".toList

/-- A section level whose pattern has no match in demoRaw. -/
def secL : LevelDesc := ⟨"section", fun _ => []⟩

/-- An article level whose pattern matches once in demoRaw: the header line
spans 0..18, code 2.1, title Scope. -/
def artL : LevelDesc := ⟨"article", fun r => if r = demoRaw then [⟨"2.1", some "Scope", 0, 18⟩] else []⟩

/-- A paragraph leaf level that matches nowhere. -/
def parL : LevelDesc := ⟨"paragraph", fun _ => []⟩

/-- The single SUBITEM match of the one-bullet passage "(a) foo". -/
def c5Head : SubItemMatch := ⟨"(a)".toList, " foo".toList⟩

/-- A text ending in whitespace, for the whitespace-tail witness. -/
def cRaw3w : List Char := ['A', ':', 'a', '\n']

/-! ### Helper lemmas -/

theorem sliceDrop (l : List Char) (a b : Nat) (h : a ≤ b) :
    l.drop a = pySlice l a b ++ l.drop b := by
  unfold pySlice
  conv_lhs => rw [← List.take_append_drop (b - a) (l.drop a)]
  congr 1
  rw [List.drop_drop]
  congr 1
  omega

theorem pyRstrip_concat (y : List Char) (c : Char) (h : pyIsSpace c = true) :
    pyRstrip (y ++ [c]) = pyRstrip y := by
  unfold pyRstrip
  simp [List.dropWhile_cons, h]

theorem pyStrip_dropLast (l : List Char) (c : Char) (hc : l.getLast? = some c)
    (hs : pyIsSpace c = true) : pyStrip l.dropLast = pyStrip l := by
  have h1 : l.dropLast ++ [c] = l := List.dropLast_append_getLast? c hc
  conv_rhs => rw [← h1]
  unfold pyStrip
  rw [pyRstrip_concat _ _ hs]

theorem slice_dropLast (l : List Char) (a : Nat) :
    pySlice l a (l.length - 1) = (l.drop a).dropLast := by
  rw [List.dropLast_eq_take, List.length_drop]
  unfold pySlice
  congr 1
  omega

theorem lastBody_eq_tail (l : List Char) (e : Nat) (c : Char)
    (hc : l.getLast? = some c) (hs : pyIsSpace c = true) :
    pyStrip (pySlice l e (l.length - 1)) = pyStrip (l.drop e) := by
  rw [slice_dropLast]
  by_cases hx : l.drop e = []
  · rw [hx]
    rfl
  · have hlast : (l.drop e).getLast? = some c := by
      rw [List.getLast?_drop, if_neg, hc]
      intro hle
      exact hx (List.drop_eq_nil_of_le hle)
    exact pyStrip_dropLast _ _ hlast hs

theorem bodySpans_ne_nil (raw : List Char) (m : HeaderMatch)
    (ms : List HeaderMatch) : bodySpans raw (m :: ms) ≠ [] := by
  cases ms <;> simp [bodySpans]

theorem buildFrom_nil (level attr : String) (header : Option String)
    (raw : List Char) :
    buildFrom level attr header raw [] = PyUnit.mk level header none none [] (some raw) :=
  rfl

theorem buildFrom_cons_found (level attr : String) (header : Option String)
    (raw : List Char) (L : LevelDesc) (rest : List LevelDesc) (m : HeaderMatch)
    (ms : List HeaderMatch) (hL : L.find raw = m :: ms) :
    buildFrom level attr header raw (L :: rest) =
      PyUnit.mk level header (some attr) (some L.name)
        ((bodySpans raw (m :: ms)).map fun p =>
          (p.1.code, buildUnit L.name p.1.title p.2 rest))
        none := by
  cases rest <;> simp [buildFrom, buildUnit, hL]

theorem buildFrom_cons_skip (level attr : String) (header : Option String)
    (raw : List Char) (L L2 : LevelDesc) (rs : List LevelDesc)
    (hL : L.find raw = []) :
    buildFrom level attr header raw (L :: L2 :: rs) =
      buildFrom level attr header raw (L2 :: rs) := by
  simp [buildFrom, hL]

theorem buildFrom_cons_term (level attr : String) (header : Option String)
    (raw : List Char) (L : LevelDesc) (hL : L.find raw = []) :
    buildFrom level attr header raw [L] =
      PyUnit.mk level header none none [] (some raw) := by
  simp [buildFrom, hL]

theorem buildFrom_level (level attr : String) (header : Option String)
    (raw : List Char) :
    ∀ chain, (buildFrom level attr header raw chain).level = level := by
  intro chain
  induction chain with
  | nil => rfl
  | cons L rest ih =>
    cases hL : L.find raw with
    | nil =>
      cases rest with
      | nil => rw [buildFrom_cons_term _ _ _ _ _ hL]; rfl
      | cons L2 rs => rw [buildFrom_cons_skip _ _ _ _ _ _ _ hL]; exact ih
    | cons m ms => rw [buildFrom_cons_found _ _ _ _ _ _ _ _ hL]; rfl

theorem buildUnit_level (level : String) (header : Option String)
    (raw : List Char) (chain : List LevelDesc) :
    (buildUnit level header raw chain).level = level := by
  cases chain with
  | nil => rfl
  | cons L rest => exact buildFrom_level _ _ _ _ _

theorem buildFrom_terminal_iff (level attr : String) (header : Option String)
    (raw : List Char) :
    ∀ chain, (buildFrom level attr header raw chain).terminalRaw = some raw ↔
      ∀ L ∈ chain, L.find raw = [] := by
  intro chain
  induction chain with
  | nil => simp [buildFrom_nil, PyUnit.terminalRaw]
  | cons L rest ih =>
    cases hL : L.find raw with
    | nil =>
      cases rest with
      | nil =>
        rw [buildFrom_cons_term _ _ _ _ _ hL]
        simp [PyUnit.terminalRaw, hL]
      | cons L2 rs =>
        rw [buildFrom_cons_skip _ _ _ _ _ _ _ hL]
        rw [ih]
        simp [hL]
    | cons m ms =>
      rw [buildFrom_cons_found _ _ _ _ _ _ _ _ hL]
      constructor
      · intro hcontra
        simp [PyUnit.terminalRaw] at hcontra
      · intro hall
        have h2 := hall L (List.mem_cons_self L rest)
        rw [hL] at h2
        exact absurd h2 (by simp)

theorem subnode_no_children (u n : PyUnit) (h : Subnode u n)
    (hu : u.children = []) : n = u := by
  cases h with
  | refl => rfl
  | step _ kc _ hmem hsub =>
    rw [hu] at hmem
    exact absurd hmem (List.not_mem_nil kc)

theorem nodeInv_term (l : String) (h : Option String) (r : List Char) :
    nodeInv (PyUnit.mk l h none none [] (some r)) := by
  constructor
  · exact Or.inr ⟨rfl, by simp [PyUnit.terminalRaw]⟩
  · intro kc hkc
    exact absurd hkc (List.not_mem_nil kc)

theorem inv_aux :
    ∀ (k : Nat) (chain : List LevelDesc), chain.length ≤ k →
      ∀ (level attr : String) (header : Option String) (raw : List Char) (n : PyUnit),
        Subnode (buildFrom level attr header raw chain) n → nodeInv n := by
  intro k
  induction k with
  | zero =>
    intro chain hlen level attr header raw n hs
    have hchain : chain = [] := List.eq_nil_of_length_eq_zero (Nat.le_zero.mp hlen)
    subst hchain
    have hn := subnode_no_children _ _ hs rfl
    subst hn
    exact nodeInv_term _ _ _
  | succ k ih =>
    intro chain hlen level attr header raw n hs
    cases chain with
    | nil =>
      have hn := subnode_no_children _ _ hs rfl
      subst hn
      exact nodeInv_term _ _ _
    | cons L rest =>
      cases hL : L.find raw with
      | nil =>
        cases rest with
        | nil =>
          rw [buildFrom_cons_term _ _ _ _ _ hL] at hs
          have hn := subnode_no_children _ _ hs rfl
          subst hn
          exact nodeInv_term _ _ _
        | cons L2 rs =>
          rw [buildFrom_cons_skip _ _ _ _ _ _ _ hL] at hs
          apply ih (L2 :: rs) ?_ level attr header raw n hs
          simp only [List.length_cons] at hlen ⊢
          omega
      | cons m ms =>
        rw [buildFrom_cons_found _ _ _ _ _ _ _ _ hL] at hs
        cases hs with
        | refl =>
          constructor
          · left
            constructor
            · simp only [PyUnit.children]
              intro hmap
              exact bodySpans_ne_nil raw m ms (List.map_eq_nil_iff.mp hmap)
            · rfl
          · intro kc hkc
            simp only [PyUnit.children] at hkc
            obtain ⟨p, _, hpe⟩ := List.mem_map.mp hkc
            have hkc2 : kc.2 = buildUnit L.name p.1.title p.2 rest := by
              rw [← hpe]
            rw [hkc2]
            simp only [PyUnit.childLevel, buildUnit_level]
        | step _ kc v hmem hsub =>
          simp only [PyUnit.children] at hmem
          obtain ⟨p, _, hpe⟩ := List.mem_map.mp hmem
          have hkc2 : kc.2 = buildUnit L.name p.1.title p.2 rest := by
            rw [← hpe]
          rw [hkc2] at hsub
          cases rest with
          | nil =>
            have hn := subnode_no_children _ _ hsub rfl
            subst hn
            exact nodeInv_term _ _ _
          | cons L2 rs =>
            have hb : buildUnit L.name p.1.title p.2 (L2 :: rs) =
                buildFrom L.name L2.name p.1.title p.2 (L2 :: rs) := rfl
            rw [hb] at hsub
            apply ih (L2 :: rs) ?_ L.name L2.name p.1.title p.2 n hsub
            simp only [List.length_cons] at hlen ⊢
            omega

theorem chunks_eq (raw : List Char) :
    ∀ (ms : List HeaderMatch) (m : HeaderMatch),
      wellOrdered raw (m :: ms) = true →
        raw.drop m.spanStart = chunks raw (m :: ms) := by
  intro ms
  induction ms with
  | nil =>
    intro m hw
    simp only [wellOrdered, Bool.and_eq_true, decide_eq_true_eq] at hw
    obtain ⟨h1, h2⟩ := hw
    rw [sliceDrop raw m.spanStart m.spanEnd h1,
      sliceDrop raw m.spanEnd (raw.length - 1) (by omega)]
    simp [chunks, List.append_assoc]
  | cons m2 rest ih =>
    intro m hw
    simp only [wellOrdered, Bool.and_eq_true, decide_eq_true_eq] at hw
    obtain ⟨⟨h1, h2⟩, h3⟩ := hw
    rw [sliceDrop raw m.spanStart m.spanEnd h1,
      sliceDrop raw m.spanEnd (m2.spanStart - 1) (by omega),
      sliceDrop raw (m2.spanStart - 1) m2.spanStart (by omega),
      ih m2 h3]
    simp [chunks, List.append_assoc]

theorem bodySpans_strip_rawBodies (raw : List Char) :
    ∀ ms : List HeaderMatch,
      (bodySpans raw ms).map Prod.snd = (rawBodies raw ms).map pyStrip := by
  intro ms
  induction ms with
  | nil => rfl
  | cons m rest ih =>
    cases rest with
    | nil => rfl
    | cons m2 rs =>
      simp only [bodySpans, rawBodies, List.map_cons]
      exact congrArg (List.cons _) ih

/-! ### Claims -/

/-- C1 counterexample: the claim demands ROMAN_INDEX for the glyph ii whose
predecessor is the roman glyph i (the predecessor is not h and ii is i
extended by one i, as specClassify records), but the classifier of the code,
_getBpointType, returns LWR for ii: it never consults the preceding marker and
tries the LWR pattern before IDX. -/
theorem C1_counterexample :
    specClassify ['i', 'i'] (some (['i'], BKey.IDX)) = some BKey.IDX ∧
      bpointType ['i', 'i'] = some BKey.LWR ∧
      (some BKey.LWR ≠ some BKey.IDX) := by
  refine ⟨by decide, by decide, by decide⟩

/-- C1 (amended): classification by _getBpointType ignores the preceding
marker entirely and depends only on the first character of the glyph: a glyph
starting with a lowercase letter (in particular every glyph of one or more
repetitions of i) is classified LWR, a glyph starting with an uppercase letter
(in particular repetitions of I) is classified CAP, and ROMAN_INDEX (IDX) is
never returned; in particular, in the marker sequence (g), (h), (i) the glyph
i is classified LOWER, not ROMAN_INDEX. -/
theorem C1_thm :
    (∀ (c : Char) (rest : List Char), 'a' ≤ c → c ≤ 'z' →
        bpointType (c :: rest) = some BKey.LWR) ∧
      (∀ (c : Char) (rest : List Char), 'A' ≤ c → c ≤ 'Z' →
        bpointType (c :: rest) = some BKey.CAP) ∧
      (∀ g : List Char, bpointType g ≠ some BKey.IDX) ∧
      bpointType ['i'] = some BKey.LWR := by
  refine ⟨?_, ?_, ?_, by decide⟩
  · intro c rest h1 h2
    simp only [bpointType]
    rw [if_neg, if_pos ⟨h1, h2⟩]
    rintro ⟨_, hZ⟩
    exact absurd (le_trans h1 hZ) (by decide)
  · intro c rest h1 h2
    simp only [bpointType]
    rw [if_pos ⟨h1, h2⟩]
  · intro g
    cases g with
    | nil => simp [bpointType]
    | cons c rest =>
      simp only [bpointType]
      split_ifs with hA ha hi
      · decide
      · decide
      · rcases hi with h | h
        · subst h
          exact absurd ⟨by decide, by decide⟩ ha
        · subst h
          exact absurd ⟨by decide, by decide⟩ hA
      · decide

/-- Witness for C1: the amended theorem applied to the glyph ii. -/
theorem C1_witness : bpointType ['i', 'i'] = some BKey.LWR :=
  C1_thm.1 'i' ['i'] (by decide) (by decide)

/-- C2: when the declared child level has no match in the raw text, the node
adopts the next child level of the chain and retries on the same text, so a
chapter whose text has article matches but no section matches gets the article
nodes directly as children (the section level is skipped), and a node stores
the terminal raw text exactly when every level of its chain fails to match. -/
theorem C2_thm (sec art : LevelDesc) (rest : List LevelDesc)
    (level attr : String) (header : Option String) (raw : List Char)
    (hsec : sec.find raw = []) (hart : art.find raw ≠ []) :
    buildFrom level attr header raw (sec :: art :: rest) =
        buildFrom level attr header raw (art :: rest) ∧
      (buildFrom level attr header raw (sec :: art :: rest)).childLevel =
        some art.name ∧
      (buildFrom level attr header raw (sec :: art :: rest)).children =
        (bodySpans raw (art.find raw)).map (fun p =>
          (p.1.code, buildUnit art.name p.1.title p.2 rest)) ∧
      (∀ kc ∈ (buildFrom level attr header raw (sec :: art :: rest)).children,
        kc.2.level = art.name) ∧
      (∀ chain : List LevelDesc,
        (buildFrom level attr header raw chain).terminalRaw = some raw ↔
          ∀ L ∈ chain, L.find raw = []) := by
  obtain ⟨m, ms, hms⟩ : ∃ m ms, art.find raw = m :: ms := by
    cases h : art.find raw with
    | nil => exact absurd h hart
    | cons m ms => exact ⟨m, ms, rfl⟩
  have hskip := buildFrom_cons_skip level attr header raw sec art rest hsec
  have hfound := buildFrom_cons_found level attr header raw art rest m ms hms
  refine ⟨hskip, ?_, ?_, ?_, ?_⟩
  · rw [hskip, hfound]
    rfl
  · rw [hskip, hfound, hms]
    rfl
  · intro kc hkc
    rw [hskip, hfound] at hkc
    simp only [PyUnit.children] at hkc
    obtain ⟨p, _, hpe⟩ := List.mem_map.mp hkc
    rw [← hpe]
    exact buildUnit_level _ _ _ _
  · intro chain
    exact buildFrom_terminal_iff level attr header raw chain

/-- Witness for C2: on a text whose section matcher finds nothing and whose
article matcher finds one header, the chapter node's children are article
nodes. -/
theorem C2_witness :
    (buildFrom "chapter" "section" (some "One") demoRaw
      (secL :: artL :: [parL])).childLevel = some "article" :=
  (C2_thm secL artL [parL] "chapter" "section" (some "One") demoRaw rfl
    (by decide)).2.1

/-- C3 counterexample: on the text A:ab with the single header match spanning
0..2, the code assigns the last match the body a (text[2 : len-1] trimmed),
while the claim's end-of-text body would be ab; so the last body does not
extend to the end of the text. -/
theorem C3_counterexample :
    bodySpans cRaw3 [cM3] = [(cM3, ['a'])] ∧
      pyStrip (cRaw3.drop cM3.spanEnd) = ['a', 'b'] ∧
      (['a'] : List Char) ≠ ['a', 'b'] := by
  refine ⟨by decide, by decide, by decide⟩

/-- C3 (amended): for match i with a successor, the body is
text[spanEnd : next.spanStart - 1] trimmed, exactly as claimed; the last
match's body is text[spanEnd : len(text) - 1] trimmed — the final character of
the text is excluded — and this equals the trimmed tail of the text (the
claimed end-of-text body) whenever the text ends in a whitespace character. -/
theorem C3_thm :
    (∀ (raw : List Char) (m m2 : HeaderMatch) (rest : List HeaderMatch),
        bodySpans raw (m :: m2 :: rest) =
          (m, pyStrip (pySlice raw m.spanEnd (m2.spanStart - 1))) ::
            bodySpans raw (m2 :: rest)) ∧
      (∀ (raw : List Char) (m : HeaderMatch),
        bodySpans raw [m] =
          [(m, pyStrip (pySlice raw m.spanEnd (raw.length - 1)))]) ∧
      (∀ (raw : List Char) (m : HeaderMatch) (c : Char),
        raw.getLast? = some c → pyIsSpace c = true →
          pyStrip (pySlice raw m.spanEnd (raw.length - 1)) =
            pyStrip (raw.drop m.spanEnd)) := by
  refine ⟨fun _ _ _ _ => rfl, fun _ _ => rfl, ?_⟩
  intro raw m c hc hs
  exact lastBody_eq_tail raw m.spanEnd c hc hs

/-- Witness for C3: the amended theorem applied to a text ending in a
newline. -/
theorem C3_witness :
    pyStrip (pySlice cRaw3w 2 (cRaw3w.length - 1)) = pyStrip (cRaw3w.drop 2) :=
  C3_thm.2.2 cRaw3w ⟨"A", none, 0, 2⟩ '\n' (by decide) (by decide)

/-- C4 counterexample: on the text A:ab with one well-ordered match, the
reconstruction the claim describes — the reported sibling bodies concatenated
with the boundary characters discarded at the cuts — yields a, not A:ab: the
header span, the prefix, the stripped whitespace and the dropped final
character are all missing from the bodies. -/
theorem C4_counterexample :
    wellOrdered cRaw3 [cM3] = true ∧ specReconstruct cRaw3 [cM3] ≠ cRaw3 := by
  refine ⟨by decide, by decide⟩

/-- C4 (amended): for a well-ordered match list the text decomposes exactly,
with no character lost or duplicated, into the prefix before the first match
followed by, for each match, its header span, its untrimmed body span, and
the single discarded boundary character (the character before the next header
for interior cuts, the final character of the text for the last match); the
splitter's reported bodies are exactly these untrimmed body spans trimmed of
leading and trailing whitespace. -/
theorem C4_thm (raw : List Char) (m : HeaderMatch)
    (rest : List HeaderMatch) (hw : wellOrdered raw (m :: rest) = true) :
    raw = raw.take m.spanStart ++ chunks raw (m :: rest) ∧
      (bodySpans raw (m :: rest)).map Prod.snd =
        (rawBodies raw (m :: rest)).map pyStrip := by
  constructor
  · conv_lhs => rw [← List.take_append_drop m.spanStart raw]
    rw [chunks_eq raw rest m hw]
  · exact bodySpans_strip_rawBodies raw (m :: rest)

/-- Witness for C4: the amended reconstruction on the concrete text A:ab. -/
theorem C4_witness :
    cRaw3 = cRaw3.take cM3.spanStart ++ chunks cRaw3 [cM3] ∧
      (bodySpans cRaw3 [cM3]).map Prod.snd =
        (rawBodies cRaw3 [cM3]).map pyStrip :=
  C4_thm cRaw3 cM3 [] (by decide)

/-- C5: evaluating the code at the failing input — the passage "(a) foo"
whose SUBITEM scan yields exactly one bullet head.  With the head list passed
explicitly, the loop pops the head, finds no following head, and takes the
lookahead break, discarding the head without emitting it; with the default
arguments the guard leaves point_heads None and the loop never runs.  In both
runs nothing is stored, where the spec says a bullet head with no following
bullet head is emitted as a leaf. -/
theorem C5_thm :
    passageGetSubUnitsTS (some [c5Head]) [c5Head] [] =
        ⟨[], none, []⟩ ∧
      passageGetSubUnitsTS none [c5Head] [] = ⟨[], none, []⟩ :=
  ⟨rfl, rfl⟩

/-- C6: every node of the tree built by the single top-down decomposition
pass is either a container — non-empty children, all instantiated at the
node's one child level, and no terminal attributes — or a terminal passage
holding the raw text with no children, never both. -/
theorem C6_thm (level attr : String) (header : Option String)
    (raw : List Char) (chain : List LevelDesc) (n : PyUnit)
    (h : Subnode (buildFrom level attr header raw chain) n) : nodeInv n :=
  inv_aux chain.length chain le_rfl level attr header raw n h

/-- Witness for C6: the invariant at the root of a concretely built tree. -/
theorem C6_witness :
    nodeInv (buildFrom "chapter" "section" none demoRaw
      (secL :: artL :: [parL])) :=
  C6_thm "chapter" "section" none demoRaw (secL :: artL :: [parL]) _
    (Subnode.refl _)

/-- C7: running the top-level parse twice over the same input yields
identical results, with the shared default seen_it object threaded
explicitly: no invocation ever mutates it (every mutating path raises
NameError first), so no state is carried over between separate top-level
invocations and the parse is a pure function of its input. -/
theorem C7_thm (level attr : String) (header : Option String)
    (raw : List Char) (chain : List LevelDesc)
    (point_heads : Option (List SubItemMatch)) (selfHeads : List SubItemMatch)
    (s : List BKey) :
    (parseTwice level attr header raw chain point_heads selfHeads s).1 =
        (parseTwice level attr header raw chain point_heads selfHeads s).2 ∧
      (passageGetSubUnitsTS point_heads selfHeads s).seenOut = s := by
  have hseen : ∀ t : List BKey,
      (passageGetSubUnitsTS point_heads selfHeads t).seenOut = t := by
    intro t
    cases point_heads with
    | none => rfl
    | some l =>
      show (passageLoopTS selfHeads t).seenOut = t
      cases selfHeads with
      | nil => rfl
      | cons a rest =>
        cases rest with
        | nil => rfl
        | cons b r => rfl
  constructor
  · simp only [parseTwice]
    rw [hseen s]
  · exact hseen s

/-- Witness for C7: two runs over a concrete input coincide. -/
theorem C7_witness :
    (parseTwice "chapter" "section" none demoRaw [secL, artL]
        (some [c5Head]) [c5Head] []).1 =
      (parseTwice "chapter" "section" none demoRaw [secL, artL]
        (some [c5Head]) [c5Head] []).2 :=
  (C7_thm "chapter" "section" none demoRaw [secL, artL]
    (some [c5Head]) [c5Head] []).1

/-- C8 counterexample: for the glyph 7, which matches none of the three
ordinal alphabets, the classifier returns no result (None) — there is no
ClassificationError anywhere in the code, so the claimed failure never
happens. -/
theorem C8_counterexample : bpointType ['7'] = none := by decide

/-- C8 (amended): classification is a deterministic total function; it
returns a marker exactly for glyphs whose first character is an ASCII letter
(or i or I, which are themselves letters), it signals any other glyph by
returning no result (None) rather than raising, and the only markers it ever
returns are CAP and LWR — IDX is unreachable. -/
theorem C8_thm :
    (∀ g : List Char, (bpointType g).isSome = true ↔
        ∃ c rest, g = c :: rest ∧
          (('A' ≤ c ∧ c ≤ 'Z') ∨ ('a' ≤ c ∧ c ≤ 'z') ∨ c = 'i' ∨ c = 'I')) ∧
      (∀ (g : List Char) (k1 k2 : BKey),
        bpointType g = some k1 → bpointType g = some k2 → k1 = k2) ∧
      (∀ g : List Char, bpointType g = none ∨
        bpointType g = some BKey.CAP ∨ bpointType g = some BKey.LWR) := by
  refine ⟨?_, ?_, ?_⟩
  · intro g
    cases g with
    | nil => simp [bpointType]
    | cons c rest =>
      simp only [bpointType]
      split_ifs with hA ha hi
      · simp only [Option.isSome_some]
        exact ⟨fun _ => ⟨c, rest, rfl, Or.inl hA⟩, fun _ => trivial⟩
      · simp only [Option.isSome_some]
        exact ⟨fun _ => ⟨c, rest, rfl, Or.inr (Or.inl ha)⟩, fun _ => trivial⟩
      · simp only [Option.isSome_some]
        refine ⟨fun _ => ⟨c, rest, rfl, ?_⟩, fun _ => trivial⟩
        rcases hi with h | h
        · exact Or.inr (Or.inr (Or.inl h))
        · exact Or.inr (Or.inr (Or.inr h))
      · simp only [Option.isSome_none]
        constructor
        · intro hco
          exact absurd hco Bool.false_ne_true
        · rintro ⟨c2, rest2, heq, hcase⟩
          injection heq with hc _
          subst hc
          rcases hcase with h | h | h | h
          · exact absurd h hA
          · exact absurd h ha
          · exact absurd (Or.inl h) hi
          · exact absurd (Or.inr h) hi
  · intro g k1 k2 e1 e2
    rw [e1] at e2
    exact Option.some.inj e2
  · intro g
    cases g with
    | nil => exact Or.inl rfl
    | cons c rest =>
      simp only [bpointType]
      split_ifs with hA ha hi
      · exact Or.inr (Or.inl rfl)
      · exact Or.inr (Or.inr rfl)
      · rcases hi with h | h
        · subst h
          exact absurd ⟨by decide, by decide⟩ ha
        · subst h
          exact absurd ⟨by decide, by decide⟩ hA
      · exact Or.inl rfl

/-- Witness for C8: the characterisation applied to the glyph a. -/
theorem C8_witness :
    ∃ c rest, (['a'] : List Char) = c :: rest ∧
      (('A' ≤ c ∧ c ≤ 'Z') ∨ ('a' ≤ c ∧ c ≤ 'z') ∨ c = 'i' ∨ c = 'I') :=
  (C8_thm.1 ['a']).mp (by decide)

/-- C9: the bullet-subtree builder of the text_sections draft never adds any
item: every call returns with nothing stored; the default call (point_heads
None) skips the scan loop entirely and leaves the shared state untouched;
and any head list long enough for the loop body to pass the lookahead raises
NameError on the unbound name last_type before any store. -/
theorem C9_thm :
    (∀ (point_heads : Option (List SubItemMatch))
        (selfHeads : List SubItemMatch) (s : List BKey),
        (passageGetSubUnitsTS point_heads selfHeads s).stored = []) ∧
      (∀ (selfHeads : List SubItemMatch) (s : List BKey),
        passageGetSubUnitsTS none selfHeads s = ⟨[], none, s⟩) ∧
      (∀ (heads : List SubItemMatch) (s : List BKey), 2 ≤ heads.length →
        (passageLoopTS heads s).err = some (PyErr.nameError "last_type")) := by
  refine ⟨?_, fun _ _ => rfl, ?_⟩
  · intro ph sh s
    cases ph with
    | none => rfl
    | some l =>
      show (passageLoopTS sh s).stored = []
      cases sh with
      | nil => rfl
      | cons a rest =>
        cases rest with
        | nil => rfl
        | cons b r => rfl
  · intro heads s hlen
    cases heads with
    | nil => simp at hlen
    | cons a rest =>
      cases rest with
      | nil => simp at hlen
      | cons b r => rfl

/-- Witness for C9: the NameError on a concrete two-head list. -/
theorem C9_witness :
    (passageLoopTS [c5Head, c5Head] []).err =
      some (PyErr.nameError "last_type") :=
  C9_thm.2.2 [c5Head, c5Head] [] (by decide)

/-- C10: every constructor of the tppProcessor draft hierarchy fails with
TypeError before any decomposition is attempted: Article, Section, Chapter
and TppFull pass three positional arguments to the two-parameter
IndexUnit.__init__, and a well-formed two-argument IndexUnit call forwards
only header to TextUnit.__init__, which requires header, text and SubUnit;
so no structural tree is ever built by this draft. -/
theorem C10_thm (header text : PyArg) :
    Article_init_tpp header text =
        Except.error (PyErr.typeError
          "IndexUnit.__init__ takes 3 positional arguments but 4 were given") ∧
      Section_init_tpp header text =
        Except.error (PyErr.typeError
          "IndexUnit.__init__ takes 3 positional arguments but 4 were given") ∧
      Chapter_init_tpp header text =
        Except.error (PyErr.typeError
          "IndexUnit.__init__ takes 3 positional arguments but 4 were given") ∧
      TppFull_init_tpp text =
        Except.error (PyErr.typeError
          "IndexUnit.__init__ takes 3 positional arguments but 4 were given") ∧
      IndexUnit_init_tpp [header, text] =
        Except.error (PyErr.typeError
          "TextUnit.__init__ missing required positional arguments") :=
  ⟨rfl, rfl, rfl, rfl, rfl⟩

/-- Witness for C10: the Article constructor fails on concrete arguments. -/
theorem C10_witness :
    Article_init_tpp (PyArg.str "2.1") (PyArg.str "text") =
      Except.error (PyErr.typeError
        "IndexUnit.__init__ takes 3 positional arguments but 4 were given") :=
  (C10_thm (PyArg.str "2.1") (PyArg.str "text")).1

end DocOnto
